import Mathlib

/-!
Verification development for the `fatura2ofx` userscript.

The script scrapes an Itaú credit-card statement page (a DOM tree) and
produces an OFX-oriented data object.  Two page-variant implementations
exist in the repository: the `scrape*` family (table-body per transaction,
year taken from the scraped due date) and the `get*` family
(table per transaction, year hard-coded to 2023).

The embedding below translates the JavaScript source into Lean:

* JavaScript numbers that can be `NaN`/`undefined` are modelled as
  `Option Int` (for integral values) or `Option Rat` (for amounts);
  `none` stands for `NaN`.  The numeric strings the script manipulates
  denote exact decimal values, so `Rat` models `parseFloat` faithfully
  on the fragment the script exercises (decimal integer and
  two-decimal-place literals; hex/exponent literals never arise here).
* Functions that can throw a `TypeError` (property access on
  `undefined`) return `Option _`, with `none` for the thrown state.
* The DOM is a finite tree; node identity is modelled as value equality.
* `new Date(y, m, d)` is modelled with the actual ECMAScript
  normalization semantics: the 0..99 year is mapped to 1900+y, the
  0-based month argument is folded into the year, and out-of-range days
  roll over into adjacent months.  `NaN` arguments give an Invalid Date.
-/

/-- Whitespace characters stripped by `String.prototype.trim` (restricted
to the ASCII whitespace occurring in the scraped pages). -/
def wsChar (c : Char) : Bool :=
  c = ' ' || c = '\n' || c = '\t' || c = '\r'

/-- Character-list version of `String.prototype.trim`.  (Defined from
first principles so that it evaluates by kernel reduction; the library
`String.trim` is defined by well-founded recursion.) -/
def trimChars (l : List Char) : List Char :=
  ((l.dropWhile wsChar).reverse.dropWhile wsChar).reverse

/-- `String.prototype.trim`. -/
def jsTrim (s : String) : String :=
  String.mk (trimChars s.data)

/-- `String.prototype.split` with a single-character separator, on char
lists: `"" → [""]`, separators delimit (possibly empty) fields. -/
def splitChar (sep : Char) : List Char → List (List Char)
  | [] => [[]]
  | c :: cs =>
    let r := splitChar sep cs
    if c = sep then [] :: r
    else
      match r with
      | [] => [[c]]
      | h :: t => (c :: h) :: t

/-- `s.split(sep)` for a one-character separator string. -/
def jsSplit (s : String) (sep : Char) : List String :=
  (splitChar sep s.data).map String.mk

/-- Value of a list of decimal digits, most significant first. -/
def digitsToNat (l : List Char) : Nat :=
  l.foldl (fun n c => 10 * n + (c.toNat - 48)) 0

/-- `Number(s)` restricted to the decimal-integer fragment used by the
script: optional surrounding whitespace, optional sign, decimal digits.
`Number("") = 0`; a string outside the fragment is modelled as `NaN`
(`none`).  Decimal/hex/exponent literals never occur in the inputs the
theorems below quantify over. -/
def jsNumber (s : String) : Option Int :=
  let t := trimChars s.data
  if t = [] then some 0
  else
    match t with
    | '-' :: r => if r ≠ [] ∧ r.all Char.isDigit then some (-(digitsToNat r : Int)) else none
    | '+' :: r => if r ≠ [] ∧ r.all Char.isDigit then some ((digitsToNat r : Int)) else none
    | r => if r ≠ [] ∧ r.all Char.isDigit then some ((digitsToNat r : Int)) else none

/-- `parseInt(s)`: optional leading whitespace and sign, then the maximal
leading run of decimal digits; `NaN` (`none`) when that run is empty. -/
def jsParseInt (s : String) : Option Int :=
  let t := (s.data).dropWhile wsChar
  let (sgn, rest) : Int × List Char :=
    match t with
    | '-' :: r => (-1, r)
    | '+' :: r => (1, r)
    | r => (1, r)
  let ds := rest.takeWhile Char.isDigit
  if ds = [] then none
  else some (sgn * (digitsToNat ds : Int))

/-- `Array.prototype.indexOf`: index of the first occurrence (strict
equality), `-1` when absent. -/
def jsIndexOf {α : Type} [DecidableEq α] : List α → α → Int
  | [], _ => -1
  | a :: l, b =>
    if a = b then 0
    else
      let r := jsIndexOf l b
      if r = -1 then -1 else r + 1

/-- ECMAScript leap-year rule (proleptic Gregorian, as used by `Date`). -/
def isLeapYear (y : Int) : Bool :=
  (y % 4 == 0 && y % 100 != 0) || y % 400 == 0

/-- Number of days of the 0-based month `m` (`0..11`) of year `y`. -/
def daysInMonth (y : Int) (m : Int) : Int :=
  if m = 1 then (if isLeapYear y then 29 else 28)
  else if m = 3 ∨ m = 5 ∨ m = 8 ∨ m = 10 then 30
  else 31

/-- Day-of-month normalization of the `Date` constructor: starting from a
0-based month `m ∈ [0,11]` and an arbitrary integral day `d`, roll the day
into range, adjusting month and year.  Fuel-driven; the callers supply
fuel that dominates the number of 28..31-day steps needed. -/
def normalizeDay : Nat → Int → Int → Int → Int × Int × Int
  | 0, y, m, d => (y, m, d)
  | Nat.succ fuel, y, m, d =>
    if d < 1 then
      let m1 := m - 1
      let y2 := y + m1.fdiv 12
      let m2 := m1.emod 12
      normalizeDay fuel y2 m2 (d + daysInMonth y2 m2)
    else if daysInMonth y m < d then
      let m1 := m + 1
      let y2 := y + m1.fdiv 12
      let m2 := m1.emod 12
      normalizeDay fuel y2 m2 (d - daysInMonth y m)
    else (y, m, d)

/-- A JavaScript `Date` value, reduced to its civil-date content (the
script never uses the time-of-day part).  `month` is 1-based. -/
inductive JSDate where
  | invalid : JSDate
  | mk (year : Int) (month : Int) (day : Int) : JSDate
deriving DecidableEq, Repr

/-- `new Date(y, m, d)` with `m` the 0-based month argument.  Any `NaN`
argument yields an Invalid Date.  Arguments `0 ≤ y ≤ 99` denote years
`1900+y`; the month is folded into the year with floored division; the
day is rolled into range. -/
def mkJSDate (y m d : Option Int) : JSDate :=
  match y, m, d with
  | some y, some m, some d =>
    let y1 := if 0 ≤ y ∧ y ≤ 99 then 1900 + y else y
    let y2 := y1 + m.fdiv 12
    let m2 := m.emod 12
    match normalizeDay (d.natAbs + 2) y2 m2 d with
    | (y3, m3, d3) => JSDate.mk y3 (m3 + 1) d3
  | _, _, _ => JSDate.invalid

/-- `Date.prototype.getFullYear`; `NaN` (`none`) on an Invalid Date. -/
def getFullYear : JSDate → Option Int
  | JSDate.invalid => none
  | JSDate.mk y _ _ => some y

/-- The table of abbreviated Portuguese month names used by both
implementations. -/
def monthAbbreviations : List String :=
  ["jan", "fev", "mar", "abr", "mai", "jun",
   "jul", "ago", "set", "out", "nov", "dez"]

/-- `parseMonthNumberToAbbreviatedMonthName` (part_001): index of the
abbreviation in the table plus one; an unknown key gives `-1 + 1 = 0`. -/
def parseMonthNumberToAbbreviatedMonthName (monthName : String) : Int :=
  jsIndexOf monthAbbreviations monthName + 1

/-- `convertMonthNumberToAbbreviatedMonthName` (fatura2ofx.js): same body
as `parseMonthNumberToAbbreviatedMonthName`. -/
def convertMonthNumberToAbbreviatedMonthName (monthName : String) : Int :=
  jsIndexOf monthAbbreviations monthName + 1

/-- `parseDateFromDaySlashMonthSlashYear(date)`: trim, split on `/`, map
`Number`, destructure into day, month, year (missing elements are
`undefined`, which turns into `NaN` in the arithmetic), and build
`new Date(2000+year, month-1, day)`. -/
def parseDateFromDaySlashMonthSlashYear (date : String) : JSDate :=
  let parts := (jsSplit (jsTrim date) '/').map jsNumber
  let day := (parts.get? 0).join
  let month := (parts.get? 1).join
  let year := (parts.get? 2).join
  mkJSDate (year.map (fun y => 2000 + y)) (month.map (fun m => m - 1)) day

/-- `parseDateComponentsFromDaySlashMonth(dayMonth)`: split on `/`, trim
each part, `parseInt` the first, look the second up in the month table
(`indexOf(undefined) = -1` when there is no second part), and return the
pair `[month, day]`. -/
def parseDateComponentsFromDaySlashMonth (dayMonth : String) : Int × Option Int :=
  let parts := (jsSplit dayMonth '/').map jsTrim
  let day := jsParseInt (parts.headD "")
  let month :=
    match parts.get? 1 with
    | none => (-1 : Int) + 1
    | some p => parseMonthNumberToAbbreviatedMonthName p
  (month, day)

/-- `parseDateFromDaySlashMonth(dayMonth, year)`: `new Date(year,
month-1, day)` from the parsed components.  The year comes in as an
`Option Int` because the caller computes it as `getFullYear()` of a
possibly invalid date (or as a literal). -/
def parseDateFromDaySlashMonth (dayMonth : String) (year : Option Int) : JSDate :=
  match parseDateComponentsFromDaySlashMonth dayMonth with
  | (month, day) => mkJSDate year (some (month - 1)) day

/-- The character class `[0-90]` of the source regex, written literally:
the range `0-9` together with the (redundant) extra `0`. -/
def inClass090 (c : Char) : Bool :=
  ('0' ≤ c && c ≤ '9') || c = '0'

/-- Attempt to match the sub-regex `[0-9.]+,[0-90]{2}` at the head of the
character list, returning the matched characters.  Since `,` is not in
the class `[0-9.]`, the greedy `+` can only succeed after consuming the
whole maximal run, so no further backtracking arises. -/
def matchTail (rest : List Char) : Option (List Char) :=
  if rest.takeWhile (fun c => inClass090 c || c = '.') = [] then none
  else
    match rest.drop (rest.takeWhile (fun c => inClass090 c || c = '.')).length with
    | ',' :: a :: b :: _ =>
      if inClass090 a && inClass090 b then
        some (rest.takeWhile (fun c => inClass090 c || c = '.') ++ [',', a, b])
      else none
    | _ => none

/-- Attempt to match `(-?[0-9.]+,[0-90]{2})` at the head of the list.  A
leading `-` is consumed by `-?`; when it is present, the alternative of
not taking it cannot succeed (the class `[0-9.]` rejects `-`), so the
regex's backtracking over `-?` collapses to this case split. -/
def matchDecimalCommaAt (cs : List Char) : Option (List Char) :=
  match cs with
  | '-' :: r => (matchTail r).map (fun m => '-' :: m)
  | r => matchTail r

/-- Leftmost match of `(-?[0-9.]+,[0-90]{2})`: try each start position in
order, as the regex engine does. -/
def findDecimalCommaMatch : List Char → Option (List Char)
  | [] => none
  | c :: cs =>
    match matchDecimalCommaAt (c :: cs) with
    | some m => some m
    | none => findDecimalCommaMatch cs

/-- `.replace(/,/, '.')`: replace the first comma with a dot. -/
def replaceFirstComma : List Char → List Char
  | [] => []
  | c :: cs => if c = ',' then '.' :: cs else c :: replaceFirstComma cs

/-- `extractDecimalCommaString(text)`: first match of
`(-?[0-9.]+,[0-90]{2})`, with every `.` removed and the comma replaced by
a decimal point; `undefined` (`none`) when nothing matches. -/
def extractDecimalCommaString (text : String) : Option String :=
  (findDecimalCommaMatch text.data).map
    (fun m => String.mk (replaceFirstComma (m.filter (fun c => c ≠ '.'))))

/-- An exact signed decimal value `num / 10 ^ scale`.  The JavaScript
numbers the script manipulates are finite decimals of this shape, so this
represents them exactly (and keeps every operation kernel-computable,
unlike `Rat`, whose normalization is not reducible by `decide`). -/
structure DecimalValue where
  num : Int
  scale : Nat
deriving DecidableEq, Repr

/-- The rational value denoted by a `DecimalValue`. -/
def DecimalValue.toRat (d : DecimalValue) : Rat :=
  (d.num : Rat) / (10 : Rat) ^ d.scale

/-- `parseFloat(s)` on the fragment produced by
`extractDecimalCommaString`: optional sign, a (possibly empty) leading
digit run, an optional `.` followed by a (possibly empty) digit run;
`NaN` (`none`) when no digit was consumed at all. -/
def jsParseFloat (s : String) : Option DecimalValue :=
  let t := (s.data).dropWhile wsChar
  let (sgn, rest) : Int × List Char :=
    match t with
    | '-' :: r => (-1, r)
    | '+' :: r => (1, r)
    | r => (1, r)
  let intPart := rest.takeWhile Char.isDigit
  let afterInt := rest.drop intPart.length
  match afterInt with
  | '.' :: r =>
    let fracPart := r.takeWhile Char.isDigit
    if intPart = [] ∧ fracPart = [] then none
    else some ⟨sgn * ((digitsToNat intPart : Int) * (10 : Int) ^ fracPart.length + (digitsToNat fracPart : Int)), fracPart.length⟩
  | _ =>
    if intPart = [] then none
    else some ⟨sgn * (digitsToNat intPart : Int), 0⟩

/-- `parseFloat` applied to a possibly-`undefined` string:
`parseFloat(undefined)` is `NaN`. -/
def jsParseFloatOpt : Option String → Option DecimalValue
  | none => none
  | some s => jsParseFloat s

/-- `parseFloatFromDecimalCommaString(number)`. -/
def parseFloatFromDecimalCommaString (number : String) : Option DecimalValue :=
  jsParseFloatOpt (extractDecimalCommaString number)

/-- A DOM element: tag name, class list, attribute list, own text, and
child elements in document order.  `textContent` of an element is its own
text followed by the text of its children; node identity is modelled as
value equality. -/
inductive Dom where
  | mk (tag : String) (classes : List String) (attrs : List (String × String)) (text : String) (children : List Dom)
deriving Repr

mutual
/-- Structural equality test on DOM trees (node identity in the model). -/
def domBEq : Dom → Dom → Bool
  | .mk t1 c1 a1 x1 ch1, .mk t2 c2 a2 x2 ch2 =>
    decide (t1 = t2) && decide (c1 = c2) && decide (a1 = a2) && decide (x1 = x2)
      && domBEqList ch1 ch2
def domBEqList : List Dom → List Dom → Bool
  | [], [] => true
  | d :: ds, e :: es => domBEq d e && domBEqList ds es
  | _, _ => false
end

mutual
theorem domBEq_refl : ∀ a : Dom, domBEq a a = true
  | .mk _ _ _ _ ch => by
    unfold domBEq
    simp [domBEqList_refl ch]
theorem domBEqList_refl : ∀ as : List Dom, domBEqList as as = true
  | [] => rfl
  | d :: ds => by
    unfold domBEqList
    simp [domBEq_refl d, domBEqList_refl ds]
end

mutual
theorem domBEq_eq : ∀ a b : Dom, domBEq a b = true → a = b
  | .mk t1 c1 a1 x1 ch1, .mk t2 c2 a2 x2 ch2, h => by
    unfold domBEq at h
    simp only [Bool.and_eq_true, decide_eq_true_eq] at h
    obtain ⟨⟨⟨⟨h1, h2⟩, h3⟩, h4⟩, h5⟩ := h
    have h6 := domBEqList_eq ch1 ch2 h5
    subst h1; subst h2; subst h3; subst h4; subst h6
    rfl
theorem domBEqList_eq : ∀ as bs : List Dom, domBEqList as bs = true → as = bs
  | [], [], _ => rfl
  | d :: ds, e :: es, h => by
    unfold domBEqList at h
    simp only [Bool.and_eq_true] at h
    have h1 := domBEq_eq d e h.1
    have h2 := domBEqList_eq ds es h.2
    subst h1; subst h2
    rfl
end

instance : DecidableEq Dom := fun a b =>
  if h : domBEq a b = true then isTrue (domBEq_eq a b h)
  else isFalse (fun he => h (he ▸ domBEq_refl a))

def Dom.tag : Dom → String
  | .mk t _ _ _ _ => t

def Dom.classes : Dom → List String
  | .mk _ c _ _ _ => c

def Dom.attrs : Dom → List (String × String)
  | .mk _ _ a _ _ => a

def Dom.children : Dom → List Dom
  | .mk _ _ _ _ ch => ch

/-- `getAttribute(name)` (first binding wins, `null` = `none`). -/
def Dom.getAttribute (e : Dom) (name : String) : Option String :=
  e.attrs.lookup name

mutual
/-- `Node.textContent`: concatenated text of the subtree. -/
def textContent : Dom → String
  | .mk _ _ _ tx ch => tx ++ textContentList ch
def textContentList : List Dom → String
  | [] => ""
  | d :: ds => textContent d ++ textContentList ds
end

mutual
/-- All proper descendants of an element, in document (pre-)order. -/
def descendants : Dom → List Dom
  | .mk _ _ _ _ ch => descendantsList ch
def descendantsList : List Dom → List Dom
  | [] => []
  | d :: ds => d :: (descendants d ++ descendantsList ds)
end

/-- `getElementsByClassName(cls)`: descendants carrying the class, in
document order. -/
def getElementsByClassName (root : Dom) (cls : String) : List Dom :=
  (descendants root).filter (fun e => cls ∈ e.classes)

/-- `getElementsByTagName(tag)`: descendants with the tag name. -/
def getElementsByTagName (root : Dom) (tag : String) : List Dom :=
  (descendants root).filter (fun e => e.tag = tag)

/-- Whether a span is marked `aria-hidden="true"`. -/
def isAriaHidden (e : Dom) : Bool :=
  e.getAttribute "aria-hidden" = some "true"

/-- `querySelectorAll('span:not([aria-hidden="true"])')` relative to an
element: its span descendants that are not aria-hidden. -/
def selectSpansNotHidden (root : Dom) : List Dom :=
  (descendants root).filter (fun e => e.tag = "span" && !isAriaHidden e)

mutual
/-- Descendants of the element matching the selector
`'.fatura__table-col-num span:not([aria-hidden="true"])'`: spans that are
not aria-hidden and have an ancestor carrying the amount-cell class.  The
flag records whether some ancestor (from the traversal root down) carries
the class. -/
def selectColNumSpans (inside : Bool) : Dom → List Dom
  | e@(.mk _ _ _ _ ch) =>
    (if inside && e.tag = "span" && !isAriaHidden e then [e] else [])
      ++ selectColNumSpansList (inside || "fatura__table-col-num" ∈ e.classes) ch
def selectColNumSpansList (inside : Bool) : List Dom → List Dom
  | [] => []
  | d :: ds => selectColNumSpans inside d ++ selectColNumSpansList inside ds
end

mutual
/-- For every descendant carrying class `cls` (in document order), the
result of `closest(tagName)` from that descendant: the nearest
ancestor-or-self with the tag, `null` (`none`) when there is none.  `anc`
is the chain of ancestors of the current element, nearest first. -/
def collectClosestByClass (cls tagName : String) (anc : List Dom) : Dom → List (Option Dom)
  | e@(.mk _ _ _ _ ch) =>
    (if cls ∈ e.classes then [((e :: anc).filter (fun a => a.tag = tagName)).head?] else [])
      ++ collectClosestByClassList cls tagName (e :: anc) ch
def collectClosestByClassList (cls tagName : String) (anc : List Dom) : List Dom → List (Option Dom)
  | [] => []
  | d :: ds =>
    collectClosestByClass cls tagName anc d ++ collectClosestByClassList cls tagName anc ds
end

/-- `firstOccurence(value, index, array)`: does the index of the first
occurrence of `value` in `array` equal `index`?  (Passed to `filter` for
de-duplication.) -/
def firstOccurence {α : Type} [DecidableEq α] (value : α) (index : Nat) (array : List α) : Bool :=
  jsIndexOf array value = (index : Int)

/-- `Array.prototype.filter` with a three-argument callback
`(value, index, array)`. -/
def jsFilterWithIndex {α : Type} (p : α → Nat → List α → Bool) (l : List α) : List α :=
  ((l.enum.filter (fun ia => p ia.2 ia.1 l)).map Prod.snd)

/-- Modelled from the spec (refinement reference, §3/§4.2): keep each
element at the index of its first appearance, drop later duplicates,
preserving the relative order of first appearances.  `seen` is the set of
elements already emitted. -/
def keepFirstOccurrencesAux {α : Type} [DecidableEq α] : List α → List α → List α
  | _, [] => []
  | seen, a :: rest =>
    if a ∈ seen then keepFirstOccurrencesAux seen rest
    else a :: keepFirstOccurrencesAux (a :: seen) rest

/-- Modelled from the spec: one entry per distinct element, in order of
first appearance. -/
def keepFirstOccurrences {α : Type} [DecidableEq α] (l : List α) : List α :=
  keepFirstOccurrencesAux [] l

/-- `scrapeDueDate(document)` (part_001) and `getDueDate(html)`
(fatura2ofx.js) share this body: read the text of the first
`c-category-status__value` inside the first `c-category-status__venc` and
parse it as `dd/mm/yy`.  A missing element is a thrown `TypeError`
(`none`). -/
def scrapeDueDate (doc : Dom) : Option JSDate := do
  let venc ← (getElementsByClassName doc "c-category-status__venc").head?
  let value ← (getElementsByClassName venc "c-category-status__value").head?
  return parseDateFromDaySlashMonthSlashYear (textContent value)

/-- `getDueDate(html)` (fatura2ofx.js): same body as `scrapeDueDate`. -/
def getDueDate (doc : Dom) : Option JSDate :=
  scrapeDueDate doc

/-- `findTrnamtTd(node)` (part_001): the first `fatura__table-col-num`
descendant of the first `tr` descendant that has a
`fatura__table-col-dsc` descendant.  `none` models both the thrown
`TypeError` (no such `tr`) and an `undefined` result (no such cell) —
either way the caller cannot proceed to a record. -/
def findTrnamtTd (node : Dom) : Option Dom := do
  let tr ← ((getElementsByTagName node "tr").filter
    (fun tr => !(getElementsByClassName tr "fatura__table-col-dsc").isEmpty)).head?
  (getElementsByClassName tr "fatura__table-col-num").head?

/-- The truthiness filter `filter(e => Boolean(e))` on an array of
strings-or-`undefined`: keeps defined, non-empty strings. -/
def jsFilterTruthy (l : List (Option String)) : List (Option String) :=
  l.filter (fun o =>
    match o with
    | none => false
    | some s => s ≠ "")

/-- The `TRNAMT` sub-expression of `scrapeStmtTrnFromNode` (part_001):
map the visible spans of the amount cell through
`extractDecimalCommaString`, keep truthy results, take the first, and
`parseFloat` it. -/
def scrapeTrnamt (node : Dom) : Option (Option DecimalValue) := do
  let td ← findTrnamtTd node
  return jsParseFloatOpt
    ((jsFilterTruthy ((selectSpansNotHidden td).map
      (fun e => extractDecimalCommaString (textContent e)))).head?.join)

/-- An OFX statement transaction: posted date, memo, signed amount.
`TRNAMT = none` models a `NaN` amount. -/
structure STMTTRN where
  DTPOSTED : JSDate
  MEMO : String
  TRNAMT : Option DecimalValue
deriving DecidableEq, Repr

/-- `scrapeStmtTrnFromNode(node, year)` (part_001).  The year arrives as
`Option Int` because the caller computes it with `getFullYear()` of a
possibly invalid due date.  `none` models a thrown `TypeError`. -/
def scrapeStmtTrnFromNode (node : Dom) (year : Option Int) : Option STMTTRN := do
  let TRNAMT ← scrapeTrnamt node
  let dscEl ← (getElementsByClassName node "fatura__table-col-dsc").head?
  let MEMO := jsTrim (textContent dscEl)
  let dataEl ← (getElementsByClassName node "fatura__table-col-data").head?
  let DTPOSTED := parseDateFromDaySlashMonth (jsTrim (textContent dataEl)) year
  return ⟨DTPOSTED, MEMO, TRNAMT⟩

/-- `findTransactionNodes(document)` (part_001): the `closest('tbody')`
of every `fatura__table-col-dsc` element, de-duplicated with
`filter(firstOccurence)`. -/
def findTransactionNodes (doc : Dom) : List (Option Dom) :=
  jsFilterWithIndex firstOccurence
    (collectClosestByClassList "fatura__table-col-dsc" "tbody" [] (doc.children))

/-- `scrapeBankTranList(document)` (part_001): map every transaction
container through `scrapeStmtTrnFromNode`, passing the due date's
`getFullYear()`. -/
def scrapeBankTranList (doc : Dom) : Option (List STMTTRN) := do
  let nodes := findTransactionNodes doc
  let dueDate ← scrapeDueDate doc
  nodes.mapM (fun o => do
    let e ← o
    scrapeStmtTrnFromNode e (getFullYear dueDate))

/-- The scrape timestamp is an opaque wall-clock instant; the embedding
passes it in explicitly (`DTSERVER: new Date()` reads the ambient
clock). -/
structure OFXData where
  DTSERVER : Int
  dueDate : JSDate
  BANKTRANLIST : List STMTTRN
deriving DecidableEq, Repr

/-- `scrapeOFXData(document)` (part_001), with the wall-clock instant
`now` made explicit. -/
def scrapeOFXData (now : Int) (doc : Dom) : Option OFXData := do
  let tranList ← scrapeBankTranList doc
  let dueDate ← scrapeDueDate doc
  return ⟨now, dueDate, tranList⟩

/-- The `TRNAMT` sub-expression of `getStmtTrnFromNode` (fatura2ofx.js):
`querySelectorAll('.fatura__table-col-num span:not([aria-hidden="true"])')`
over the whole container, then the same extract/filter/parse chain. -/
def getTrnamt (node : Dom) : Option DecimalValue :=
  jsParseFloatOpt
    ((jsFilterTruthy ((selectColNumSpansList ("fatura__table-col-num" ∈ node.classes) node.children).map
      (fun e => extractDecimalCommaString (textContent e)))).head?.join)

/-- `getStmtTrnFromNode(node)` (fatura2ofx.js): like
`scrapeStmtTrnFromNode` but with the year hard-coded to `2023`. -/
def getStmtTrnFromNode (node : Dom) : Option STMTTRN := do
  let TRNAMT := getTrnamt node
  let dscEl ← (getElementsByClassName node "fatura__table-col-dsc").head?
  let MEMO := jsTrim (textContent dscEl)
  let dataEl ← (getElementsByClassName node "fatura__table-col-data").head?
  let DTPOSTED := parseDateFromDaySlashMonth (jsTrim (textContent dataEl)) (some 2023)
  return ⟨DTPOSTED, MEMO, TRNAMT⟩

/-- `getTransactionNodes(html)` (fatura2ofx.js): the `closest('table')`
of every `fatura__table-col-data` element, de-duplicated. -/
def getTransactionNodes (doc : Dom) : List (Option Dom) :=
  jsFilterWithIndex firstOccurence
    (collectClosestByClassList "fatura__table-col-data" "table" [] (doc.children))

/-- `getBankTranList(html)` (fatura2ofx.js). -/
def getBankTranList (doc : Dom) : Option (List STMTTRN) :=
  (getTransactionNodes doc).mapM (fun o => do
    let e ← o
    getStmtTrnFromNode e)

/-- `getOFXData(html)` (fatura2ofx.js), wall-clock instant explicit. -/
def getOFXData (now : Int) (doc : Dom) : Option OFXData := do
  let tranList ← getBankTranList doc
  let dueDate ← getDueDate doc
  return ⟨now, dueDate, tranList⟩

/-! Concrete documents used as witnesses and counterexamples.  They
mirror the structure of the example statement page the source's doc
comments test against: a due-date banner and transaction tables whose
rows carry the `fatura__table-col-data` / `-dsc` / `-num` cells. -/

/-- Amount span of an ordinary expense row: `R$ 58,14`. -/
def spanAmt1 : Dom := .mk "span" [] [] "R$ 58,14" []

def tdNum1 : Dom := .mk "td" ["fatura__table-col-num"] [] "" [spanAmt1]

def tdDsc1 : Dom := .mk "td" ["fatura__table-col-dsc"] [] "Amazon Br         03/04" []

def tdData1 : Dom := .mk "td" ["fatura__table-col-data"] [] "23 / abr" []

def tr1 : Dom := .mk "tr" [] [] "" [tdData1, tdDsc1, tdNum1]

def tbody1 : Dom := .mk "tbody" [] [] "" [tr1]

def table1 : Dom := .mk "table" [] [] "" [tbody1]

/-- Dual-currency expense row: a hidden original-currency span and a
visible converted span. -/
def spanHidden2 : Dom := .mk "span" [] [("aria-hidden", "true")] "US$ 20,00" []

def spanVisible2 : Dom := .mk "span" [] [] "R$ 127,82" []

def tdNum2 : Dom := .mk "td" ["fatura__table-col-num"] [] "" [spanHidden2, spanVisible2]

def tdDsc2 : Dom := .mk "td" ["fatura__table-col-dsc"] [] "Pinboard" []

def tdData2 : Dom := .mk "td" ["fatura__table-col-data"] [] "6 / jul" []

def tr2 : Dom := .mk "tr" [] [] "" [tdData2, tdDsc2, tdNum2]

def tbody2 : Dom := .mk "tbody" [] [] "" [tr2]

def table2 : Dom := .mk "table" [] [] "" [tbody2]

/-- A transaction row whose amount spans contain no decimal-comma
match. -/
def spanAmt3 : Dom := .mk "span" [] [] "sem valor" []

def tdNum3 : Dom := .mk "td" ["fatura__table-col-num"] [] "" [spanAmt3]

def tdDsc3 : Dom := .mk "td" ["fatura__table-col-dsc"] [] "Tim*61981548988" []

def tdData3 : Dom := .mk "td" ["fatura__table-col-data"] [] "6 / jun" []

def tr3 : Dom := .mk "tr" [] [] "" [tdData3, tdDsc3, tdNum3]

def tbody3 : Dom := .mk "tbody" [] [] "" [tr3]

def table3 : Dom := .mk "table" [] [] "" [tbody3]

/-- Due-date banner reading `15/07/20`. -/
def dueValue1 : Dom := .mk "span" ["c-category-status__value"] [] "15/07/20" []

def dueBanner1 : Dom := .mk "div" ["c-category-status__venc"] [] "" [dueValue1]

/-- A statement page: due date `15/07/20`, one ordinary expense. -/
def pageDoc1 : Dom := .mk "html" [] [] "" [dueBanner1, table1]

/-- A statement page with a dual-currency expense as well. -/
def pageDoc2 : Dom := .mk "html" [] [] "" [dueBanner1, table1, table2]

/-- A page whose due-date banner reads `15/07` (not three parts). -/
def dueValueBad : Dom := .mk "span" ["c-category-status__value"] [] "15/07" []

def dueBannerBad : Dom := .mk "div" ["c-category-status__venc"] [] "" [dueValueBad]

def pageDocBadDue : Dom := .mk "html" [] [] "" [dueBannerBad, table1]

/-- A page without the due-date marker element. -/
def pageDocNoMarker : Dom := .mk "html" [] [] "" [table1]

/-! ### Helper lemmas -/

theorem matchTail_comma_mem_input (rest m : List Char)
    (h : matchTail rest = some m) : ',' ∈ rest := by
  unfold matchTail at h
  split at h
  · exact absurd h (by simp)
  · split at h
    · rename_i heq
      have hdrop : ',' ∈ rest.drop (rest.takeWhile (fun c => inClass090 c || c = '.')).length := by
        rw [heq]
        exact List.mem_cons_self _ _
      exact List.mem_of_mem_drop hdrop
    · exact absurd h (by simp)

theorem matchTail_comma_mem_match (rest m : List Char)
    (h : matchTail rest = some m) : ',' ∈ m := by
  unfold matchTail at h
  split at h
  · exact absurd h (by simp)
  · split at h
    · split at h
      · simp only [Option.some_inj] at h
        subst h
        simp
      · exact absurd h (by simp)
    · exact absurd h (by simp)

theorem matchDecimalCommaAt_comma_mem_input (l m : List Char)
    (h : matchDecimalCommaAt l = some m) : ',' ∈ l := by
  unfold matchDecimalCommaAt at h
  split at h
  · rename_i r
    cases hmt : matchTail r with
    | none => rw [hmt] at h; exact absurd h (by simp)
    | some m0 =>
      exact List.mem_cons_of_mem _ (matchTail_comma_mem_input r m0 hmt)
  · exact matchTail_comma_mem_input _ m h

theorem matchDecimalCommaAt_comma_mem_match (l m : List Char)
    (h : matchDecimalCommaAt l = some m) : ',' ∈ m := by
  unfold matchDecimalCommaAt at h
  split at h
  · rename_i r
    cases hmt : matchTail r with
    | none => rw [hmt] at h; exact absurd h (by simp)
    | some m0 =>
      rw [hmt] at h
      simp only [Option.map_some', Option.some_inj] at h
      subst h
      exact List.mem_cons_of_mem _ (matchTail_comma_mem_match r m0 hmt)
  · exact matchTail_comma_mem_match _ m h

theorem findDecimalCommaMatch_comma_mem_input :
    ∀ (l m : List Char), findDecimalCommaMatch l = some m → ',' ∈ l
  | [], _, h => by simp [findDecimalCommaMatch] at h
  | c :: cs, m, h => by
    unfold findDecimalCommaMatch at h
    split at h
    · rename_i heq
      rw [Option.some_inj] at h
      exact matchDecimalCommaAt_comma_mem_input (c :: cs) m (h ▸ heq)
    · exact List.mem_cons_of_mem c (findDecimalCommaMatch_comma_mem_input cs m h)

theorem findDecimalCommaMatch_comma_mem_match :
    ∀ (l m : List Char), findDecimalCommaMatch l = some m → ',' ∈ m
  | [], _, h => by simp [findDecimalCommaMatch] at h
  | c :: cs, m, h => by
    unfold findDecimalCommaMatch at h
    split at h
    · rename_i heq
      rw [Option.some_inj] at h
      exact matchDecimalCommaAt_comma_mem_match (c :: cs) m (h ▸ heq)
    · exact findDecimalCommaMatch_comma_mem_match cs m h

theorem replaceFirstComma_length : ∀ l : List Char, (replaceFirstComma l).length = l.length
  | [] => rfl
  | c :: cs => by
    unfold replaceFirstComma
    split <;> simp [replaceFirstComma_length cs]

/-- A successful extraction is never the empty string (the match contains
a comma, which survives dot-stripping and becomes the decimal point). -/
theorem extractDecimalCommaString_ne_empty (s v : String)
    (h : extractDecimalCommaString s = some v) : v ≠ "" := by
  unfold extractDecimalCommaString at h
  cases hfind : findDecimalCommaMatch s.data with
  | none => rw [hfind] at h; exact absurd h (by simp)
  | some m =>
    rw [hfind] at h
    simp only [Option.map_some', Option.some_inj] at h
    have hmem : ',' ∈ m := findDecimalCommaMatch_comma_mem_match s.data m hfind
    have hmf : ',' ∈ m.filter (fun c => c ≠ '.') :=
      List.mem_filter.mpr ⟨hmem, by decide⟩
    have hne : (m.filter (fun c => c ≠ '.')).length ≠ 0 :=
      fun h0 => by
        rw [List.length_eq_zero] at h0
        rw [h0] at hmf
        exact List.not_mem_nil _ hmf
    intro hv
    rw [← h] at hv
    have : (replaceFirstComma (m.filter (fun c => c ≠ '.'))).length = 0 := by
      have := congrArg (fun t => t.data.length) hv
      simpa using this
    rw [replaceFirstComma_length] at this
    exact hne this

/-- The code's select-first-truthy-amount chain
(`map`/`filter(Boolean)`/`[0]`) equals "the first non-empty match", when
the candidate function never produces an empty string. -/
theorem firstTruthy_eq_findSome {α : Type} (f : α → Option String)
    (hne : ∀ a v, f a = some v → v ≠ "") :
    ∀ l : List α, (jsFilterTruthy (l.map f)).head?.join = l.findSome? f := by
  intro l
  induction l with
  | nil => rfl
  | cons a l ih =>
    cases hfa : f a with
    | none =>
      simp only [List.map_cons, jsFilterTruthy, List.filter_cons, hfa]
      simpa [jsFilterTruthy, List.findSome?_cons, hfa] using ih
    | some v =>
      have hv : v ≠ "" := hne a v hfa
      simp [jsFilterTruthy, List.findSome?_cons, hfa, hv]

theorem jsIndexOf_cons {α : Type} [DecidableEq α] (b a : α) (l : List α) :
    jsIndexOf (b :: l) a =
      if b = a then 0 else (if jsIndexOf l a = -1 then -1 else jsIndexOf l a + 1) := by
  simp [jsIndexOf]

theorem jsIndexOf_of_not_mem {α : Type} [DecidableEq α]
    (l : List α) (a : α) (h : a ∉ l) : jsIndexOf l a = -1 := by
  induction l with
  | nil => rfl
  | cons b l ih =>
    have hba : ¬ b = a := by rintro rfl; exact h (List.mem_cons_self _ _)
    have hm : a ∉ l := fun hm => h (List.mem_cons_of_mem b hm)
    simp [jsIndexOf, hba, ih hm]

theorem jsIndexOf_nonneg_of_mem {α : Type} [DecidableEq α]
    (l : List α) (a : α) (h : a ∈ l) : 0 ≤ jsIndexOf l a := by
  induction l with
  | nil => exact absurd h (List.not_mem_nil a)
  | cons b l ih =>
    by_cases hba : b = a
    · simp [jsIndexOf, hba]
    · have hm : a ∈ l := by
        rcases List.mem_cons.mp h with h1 | h1
        · exact absurd h1.symm hba
        · exact h1
      have h2 := ih hm
      simp only [jsIndexOf, if_neg hba]
      split <;> omega

theorem jsIndexOf_append_of_mem {α : Type} [DecidableEq α]
    (l1 l2 : List α) (a : α) (h : a ∈ l1) :
    jsIndexOf (l1 ++ l2) a = jsIndexOf l1 a := by
  induction l1 with
  | nil => exact absurd h (List.not_mem_nil a)
  | cons b l1 ih =>
    by_cases hba : b = a
    · simp [jsIndexOf, hba]
    · have hm : a ∈ l1 := by
        rcases List.mem_cons.mp h with h1 | h1
        · exact absurd h1.symm hba
        · exact h1
      simp [jsIndexOf, hba, ih hm]

theorem jsIndexOf_lt_length {α : Type} [DecidableEq α]
    (l : List α) (a : α) : jsIndexOf l a < (l.length : Int) := by
  induction l with
  | nil => simp [jsIndexOf]
  | cons b l ih =>
    by_cases hba : b = a
    · simp [jsIndexOf, hba]
    · simp only [jsIndexOf, if_neg hba, List.length_cons]
      split <;> push_cast <;> omega

theorem jsIndexOf_append_self {α : Type} [DecidableEq α]
    (l1 : List α) (a : α) (l2 : List α) (h : a ∉ l1) :
    jsIndexOf (l1 ++ a :: l2) a = (l1.length : Int) := by
  induction l1 with
  | nil => simp [jsIndexOf]
  | cons b l1 ih =>
    have hba : ¬ b = a := by rintro rfl; exact h (List.mem_cons_self _ _)
    have hm : a ∉ l1 := fun hm => h (List.mem_cons_of_mem b hm)
    have h2 := ih hm
    have h0 : (0 : Int) ≤ (l1.length : Int) := Int.ofNat_nonneg _
    rw [List.cons_append, jsIndexOf_cons, if_neg hba, h2, if_neg (by omega)]
    simp only [List.length_cons]
    push_cast
    omega

theorem fdiv_twelve_eq_zero (a : Int) (h1 : 0 ≤ a) (h2 : a < 12) : a.fdiv 12 = 0 := by
  interval_cases a <;> rfl

theorem emod_twelve_eq_self (a : Int) (h1 : 0 ≤ a) (h2 : a < 12) : a.emod 12 = a := by
  exact Int.emod_eq_of_lt h1 h2

theorem normalizeDay_of_in_range (fuel : Nat) (y m d : Int)
    (h1 : 1 ≤ d) (h2 : d ≤ daysInMonth y m) :
    normalizeDay (fuel + 1) y m d = (y, m, d) := by
  unfold normalizeDay
  rw [if_neg (by omega), if_neg (by omega)]

theorem mkJSDate_valid (y m d : Int) (hy : ¬(0 ≤ y ∧ y ≤ 99))
    (hm1 : 0 ≤ m) (hm2 : m < 12) (hd1 : 1 ≤ d) (hd2 : d ≤ daysInMonth y m) :
    mkJSDate (some y) (some m) (some d) = JSDate.mk y (m + 1) d := by
  unfold mkJSDate
  simp only
  rw [if_neg hy, fdiv_twelve_eq_zero m hm1 hm2, emod_twelve_eq_self m hm1 hm2, add_zero]
  have hfuel : d.natAbs + 2 = (d.natAbs + 1) + 1 := rfl
  rw [hfuel, normalizeDay_of_in_range (d.natAbs + 1) y m d hd1 hd2]

theorem mkJSDate_none_first (m d : Option Int) : mkJSDate none m d = JSDate.invalid := rfl

/-! ### C7: decimal-comma extraction preserves numeric meaning -/

/-- C7: decimal-comma extraction strips every `.` thousands separator and
replaces the decimal comma with a decimal point:
`extractDecimalCommaString "58,14" = "58.14"`, and on the noisy
dual-line text containing `-10.823,97` it returns `"-10823.97"`; parsing
each output with `parseFloat` yields exactly the signed magnitudes
`58.14` and `-10823.97`. -/
theorem extract_decimal_comma_normalizes :
    extractDecimalCommaString "58,14" = some "58.14" ∧
    extractDecimalCommaString "                            R$\n\t\t\t\t\t\t\t\n\t\t\t\t\t\t\t\n\t\t\t\t\t\t\t\n\t\t\t\t\t\t\t\n                            -10.823,97\n" = some "-10823.97" ∧
    (jsParseFloat "58.14").map DecimalValue.toRat = some (2907 / 50 : Rat) ∧
    (jsParseFloat "-10823.97").map DecimalValue.toRat = some (-(1082397 / 100) : Rat) ∧
    parseFloatFromDecimalCommaString "58,14" = jsParseFloat "58.14" := by
  refine ⟨by decide, by decide, ?_, ?_, by decide⟩
  · have h : jsParseFloat "58.14" = some ⟨5814, 2⟩ := by decide
    rw [h, Option.map_some']
    unfold DecimalValue.toRat
    norm_num
  · have h : jsParseFloat "-10823.97" = some ⟨-1082397, 2⟩ := by decide
    rw [h, Option.map_some']
    unfold DecimalValue.toRat
    norm_num

/-! ### C10: totality and permissiveness of the extraction pattern -/

/-- C10: `extractDecimalCommaString` is total — it returns `undefined`
(`none`) when nothing matches (in particular whenever the text has no
comma) — and its pattern is unanchored and permissive: a longer
fractional part is truncated to the two-digit match
(`"58,145" ↦ "58.14"`), dots may appear anywhere among the leading
digits (`"1.2.3,45" ↦ "123.45"`), and the class `[0-90]` is just
`[0-9]`. -/
theorem extract_decimal_comma_permissive :
    extractDecimalCommaString "58,145" = some "58.14" ∧
    extractDecimalCommaString "1.2.3,45" = some "123.45" ∧
    (∀ c : Char, inClass090 c = true ↔ ('0' ≤ c ∧ c ≤ '9')) ∧
    (∀ s : String, (∀ c ∈ s.data, c ≠ ',') → extractDecimalCommaString s = none) := by
  refine ⟨by decide, by decide, fun c => ?_, fun s hs => ?_⟩
  · constructor
    · intro h
      have h2 : ('0' ≤ c ∧ c ≤ '9') ∨ c = '0' := by simpa [inClass090] using h
      rcases h2 with h1 | h1
      · exact h1
      · subst h1
        exact ⟨by decide, by decide⟩
    · rintro ⟨h1, h2⟩
      simp [inClass090, h1, h2]
  · unfold extractDecimalCommaString
    cases hfind : findDecimalCommaMatch s.data with
    | none => simp
    | some m =>
      exact absurd (findDecimalCommaMatch_comma_mem_input s.data m hfind)
        (hs ',' |> fun hcomma hmem => hcomma hmem rfl)

/-- Witness for `extract_decimal_comma_permissive`: a comma-free text
yields `undefined`. -/
theorem extract_decimal_comma_permissive_witness :
    extractDecimalCommaString "R$ 58.14" = none :=
  extract_decimal_comma_permissive.2.2.2 "R$ 58.14" (by decide)

/-- Unravelling the record construction of `scrapeStmtTrnFromNode`: when
it succeeds, the record's `TRNAMT` is whatever `scrapeTrnamt`
computed. -/
theorem scrapeStmtTrnFromNode_TRNAMT (node : Dom) (year : Option Int) (rec : STMTTRN)
    (v : Option DecimalValue) (h1 : scrapeTrnamt node = some v)
    (hrec : scrapeStmtTrnFromNode node year = some rec) : rec.TRNAMT = v := by
  unfold scrapeStmtTrnFromNode at hrec
  rw [h1] at hrec
  simp only [Option.bind_eq_bind, Option.some_bind'] at hrec
  cases hdsc : (getElementsByClassName node "fatura__table-col-dsc").head? with
  | none => rw [hdsc] at hrec; simp at hrec
  | some dscEl =>
    rw [hdsc] at hrec
    simp only [Option.bind_eq_bind, Option.some_bind'] at hrec
    cases hdata : (getElementsByClassName node "fatura__table-col-data").head? with
    | none => rw [hdata] at hrec; simp at hrec
    | some dataEl =>
      rw [hdata] at hrec
      simp only [Option.bind_eq_bind, Option.some_bind', Option.pure_def,
        Option.some_inj] at hrec
      rw [← hrec]

/-! ### C8: hidden spans are excluded from amount candidates -/

/-- C8: for a transaction container whose amount cell holds both an
`aria-hidden="true"` span and a visible span (dual-currency row), the
extracted `TRNAMT` comes only from the visible spans: the candidate list
contains no hidden span (it is exactly the visible subset of the cell's
span descendants), and the first non-empty decimal-comma match among
those visible candidates is the value that is parsed. -/
theorem trnamt_from_visible_spans_only (node td : Dom) (year : Option Int) (rec : STMTTRN)
    (htd : findTrnamtTd node = some td)
    (hhidden : ∃ s ∈ getElementsByTagName td "span", isAriaHidden s = true)
    (hvisible : ∃ s ∈ getElementsByTagName td "span", isAriaHidden s = false)
    (hrec : scrapeStmtTrnFromNode node year = some rec) :
    (∀ s ∈ selectSpansNotHidden td, isAriaHidden s = false) ∧
    selectSpansNotHidden td =
      (getElementsByTagName td "span").filter (fun s => !isAriaHidden s) ∧
    rec.TRNAMT = jsParseFloatOpt ((selectSpansNotHidden td).findSome?
      (fun s => extractDecimalCommaString (textContent s))) := by
  refine ⟨fun s hs => ?_, ?_, ?_⟩
  · have h := (List.mem_filter.mp hs).2
    simp only [Bool.and_eq_true, Bool.not_eq_true'] at h
    exact h.2
  · unfold selectSpansNotHidden getElementsByTagName
    rw [List.filter_filter]
    apply List.filter_congr
    intro e _
    cases htag : decide (e.tag = "span") <;> cases hh : isAriaHidden e <;> simp [htag, hh]
  · have h1 : scrapeTrnamt node = some (jsParseFloatOpt ((selectSpansNotHidden td).findSome?
        (fun s => extractDecimalCommaString (textContent s)))) := by
      unfold scrapeTrnamt
      rw [htd]
      simp only [Option.bind_eq_bind, Option.some_bind', Option.pure_def, Option.some_inj]
      rw [firstTruthy_eq_findSome (fun s => extractDecimalCommaString (textContent s))
        (fun a v hv => extractDecimalCommaString_ne_empty _ v hv) (selectSpansNotHidden td)]
    exact scrapeStmtTrnFromNode_TRNAMT node year rec _ h1 hrec

/-- Witness for `trnamt_from_visible_spans_only`: the dual-currency row
`tbody2` (hidden `US$ 20,00`, visible `R$ 127,82`) yields the visible
value 127.82. -/
theorem trnamt_from_visible_spans_only_witness :
    (STMTTRN.mk (JSDate.mk 2020 7 6) "Pinboard" (some ⟨12782, 2⟩)).TRNAMT =
      jsParseFloatOpt ((selectSpansNotHidden tdNum2).findSome?
        (fun s => extractDecimalCommaString (textContent s))) :=
  (trnamt_from_visible_spans_only tbody2 tdNum2 (some 2020) _ (by decide)
    ⟨spanHidden2, by decide, by decide⟩ ⟨spanVisible2, by decide, by decide⟩
    (by decide)).2.2

/-! ### C9: de-duplication by first occurrence -/

theorem filter_firstOccurence_aux {α : Type} [DecidableEq α] :
    ∀ (suf pre seen : List α), (∀ x, x ∈ seen ↔ x ∈ pre) →
      ((List.enumFrom pre.length suf).filter
          (fun ia => firstOccurence ia.2 ia.1 (pre ++ suf))).map Prod.snd
        = keepFirstOccurrencesAux seen suf
  | [], _, _, _ => by simp [List.enumFrom, keepFirstOccurrencesAux]
  | a :: rest, pre, seen, hinv => by
    rw [List.enumFrom]
    by_cases hmem : a ∈ pre
    · have hlt : jsIndexOf (pre ++ a :: rest) a < (pre.length : Int) := by
        rw [jsIndexOf_append_of_mem pre (a :: rest) a hmem]
        exact jsIndexOf_lt_length pre a
      have hcond : firstOccurence a pre.length (pre ++ a :: rest) = false := by
        unfold firstOccurence
        simp only [decide_eq_false_iff_not]
        omega
      rw [List.filter_cons_of_neg (by simpa using hcond)]
      have hinv2 : ∀ x, x ∈ seen ↔ x ∈ pre ++ [a] := by
        intro x
        rw [hinv x]
        constructor
        · exact fun hx => List.mem_append_left _ hx
        · intro hx
          rcases List.mem_append.mp hx with hx | hx
          · exact hx
          · rw [List.mem_singleton.mp hx]
            exact hmem
      have hrec := filter_firstOccurence_aux rest (pre ++ [a]) seen hinv2
      rw [List.length_append, List.length_singleton] at hrec
      rw [← List.append_cons] at hrec
      rw [keepFirstOccurrencesAux, if_pos ((hinv a).mpr hmem)]
      exact hrec
    · have hcond : firstOccurence a pre.length (pre ++ a :: rest) = true := by
        unfold firstOccurence
        simp only [decide_eq_true_eq]
        exact jsIndexOf_append_self pre a rest hmem
      rw [List.filter_cons_of_pos (by simpa using hcond), List.map_cons]
      have hinv2 : ∀ x, x ∈ a :: seen ↔ x ∈ pre ++ [a] := by
        intro x
        constructor
        · intro hx
          rcases List.mem_cons.mp hx with hx | hx
          · subst hx
            exact List.mem_append_right _ (List.mem_singleton_self _)
          · exact List.mem_append_left _ ((hinv x).mp hx)
        · intro hx
          rcases List.mem_append.mp hx with hx | hx
          · exact List.mem_cons_of_mem _ ((hinv x).mpr hx)
          · rw [List.mem_singleton.mp hx]
            exact List.mem_cons_self _ _
      have hrec := filter_firstOccurence_aux rest (pre ++ [a]) (a :: seen) hinv2
      rw [List.length_append, List.length_singleton] at hrec
      rw [← List.append_cons] at hrec
      rw [keepFirstOccurrencesAux, if_neg (fun hx => hmem ((hinv a).mp hx))]
      exact congrArg (a :: ·) hrec

/-- C9: filtering any array with the `firstOccurence` predicate keeps
exactly the element at the index of its first appearance and drops every
later duplicate, yielding one entry per distinct element in the relative
order of first appearances; e.g. `[A, B, A]` filters to `[A, B]`. -/
theorem filter_firstOccurence_dedups :
    (∀ (α : Type) [DecidableEq α] (l : List α),
      jsFilterWithIndex firstOccurence l = keepFirstOccurrences l) ∧
    jsFilterWithIndex firstOccurence [0, 1, 0] = ([0, 1] : List Nat) := by
  constructor
  · intro α inst l
    unfold jsFilterWithIndex keepFirstOccurrences
    have h := filter_firstOccurence_aux l [] ([] : List α) (fun x => Iff.rfl)
    simpa [List.enum] using h
  · decide

/-- Witness for `filter_firstOccurence_dedups` at a concrete list with a
repeated element. -/
theorem filter_firstOccurence_dedups_witness :
    jsFilterWithIndex firstOccurence [7, 8, 7, 9] = keepFirstOccurrences [7, 8, 7, 9] :=
  filter_firstOccurence_dedups.1 Nat [7, 8, 7, 9]

/-! ### C1: the inferred year versus the due date's year -/

/-- C1 (evaluation at the failing input): on a page whose due date reads
`15/07/20` and whose single transaction row is dated `23 / abr`, the
part_001 variant (`scrapeBankTranList`) posts the transaction in the due
date's year 2020, but the fatura2ofx.js variant (`getBankTranList`,
via `getStmtTrnFromNode`) passes the hard-coded constant 2023 to
`parseDateFromDaySlashMonth` and posts it in 2023 — contradicting the
function's own doc example, which expects `2020-04-23` on this page. -/
theorem get_variant_hardcodes_year_2023 :
    (getDueDate pageDoc1).map getFullYear = some (some 2020) ∧
    scrapeBankTranList pageDoc1 =
      some [⟨JSDate.mk 2020 4 23, "Amazon Br         03/04", some ⟨5814, 2⟩⟩] ∧
    getBankTranList pageDoc1 =
      some [⟨JSDate.mk 2023 4 23, "Amazon Br         03/04", some ⟨5814, 2⟩⟩] ∧
    (2023 : Int) ≠ 2020 := by decide

/-! ### C2: surfacing of extraction failures -/

/-- C2 counterexample: on a page whose due-date text `"15/07"` does not
split into three numeric parts, the scrape does not fail: it returns an
Invalid Date value; likewise a transaction row none of whose visible
amount spans matches the decimal-comma pattern yields a successful record
with a `NaN` (`none`) `TRNAMT`, not an error. -/
theorem extraction_failures_not_surfaced :
    scrapeDueDate pageDocBadDue = some JSDate.invalid ∧
    scrapeDueDate pageDocBadDue ≠ none ∧
    scrapeStmtTrnFromNode tbody3 (some 2020) =
      some ⟨JSDate.mk 2020 6 6, "Tim*61981548988", none⟩ := by decide

/-- C2 amended: the due-date extraction fails (a thrown `TypeError`,
modelled as `none`) exactly when a marker element is absent — no
`c-category-status__venc` element, or no `c-category-status__value`
inside the first one; the text parse itself never fails.  The other
extraction failures flow through as sentinel values: due-date text with
fewer than three parts yields an Invalid Date result; text with three or
more parts silently uses the first three and ignores the rest, so
`"01/02/03/04"` yields the valid, plausible-looking date 2003-02-01; and
a transaction row none of whose visible amount spans matches the
decimal-comma pattern yields a successful record with a `NaN` amount. -/
theorem extraction_failure_modes :
    (∀ doc : Dom, scrapeDueDate doc = none ↔
       (getElementsByClassName doc "c-category-status__venc" = [] ∨
        ∃ venc, (getElementsByClassName doc "c-category-status__venc").head? = some venc ∧
          getElementsByClassName venc "c-category-status__value" = [])) ∧
    (∀ s : String, (jsSplit (jsTrim s) '/').length < 3 →
       parseDateFromDaySlashMonthSlashYear s = JSDate.invalid) ∧
    (∀ (s ds ms ys : String) (rest : List String),
       jsSplit (jsTrim s) '/' = ds :: ms :: ys :: rest →
       parseDateFromDaySlashMonthSlashYear s =
         mkJSDate ((jsNumber ys).map (fun y => 2000 + y))
           ((jsNumber ms).map (fun m => m - 1)) (jsNumber ds)) ∧
    parseDateFromDaySlashMonthSlashYear "01/02/03/04" = JSDate.mk 2003 2 1 ∧
    (∀ (node td : Dom) (year : Option Int) (rec : STMTTRN),
       findTrnamtTd node = some td →
       (∀ e ∈ selectSpansNotHidden td, extractDecimalCommaString (textContent e) = none) →
       scrapeStmtTrnFromNode node year = some rec → rec.TRNAMT = none) := by
  refine ⟨fun doc => ?_, fun s h => ?_, fun s ds ms ys rest hsplit => ?_, by decide,
    fun node td year rec htd hall hrec => ?_⟩
  · unfold scrapeDueDate
    cases h1 : (getElementsByClassName doc "c-category-status__venc").head? with
    | none =>
      have h1e : getElementsByClassName doc "c-category-status__venc" = [] :=
        List.head?_eq_none_iff.mp h1
      simp [h1e]
    | some venc =>
      simp only [Option.bind_eq_bind, Option.some_bind']
      have h1ne : ¬ getElementsByClassName doc "c-category-status__venc" = [] := by
        intro he
        rw [he] at h1
        exact absurd h1 (by simp)
      cases h2 : (getElementsByClassName venc "c-category-status__value").head? with
      | none =>
        have h2e : getElementsByClassName venc "c-category-status__value" = [] :=
          List.head?_eq_none_iff.mp h2
        exact iff_of_true rfl (Or.inr ⟨venc, rfl, h2e⟩)
      | some value =>
        have h2ne : ¬ getElementsByClassName venc "c-category-status__value" = [] := by
          intro he
          rw [he] at h2
          exact absurd h2 (by simp)
        refine iff_of_false (by simp) ?_
        rintro (hl | ⟨venc2, hv2, hval2⟩)
        · exact h1ne hl
        · injection hv2 with hv2e
          subst hv2e
          exact h2ne hval2
  · unfold parseDateFromDaySlashMonthSlashYear
    have hy : (jsSplit (jsTrim s) '/')[2]? = none := by
      rw [List.getElem?_eq_none_iff]
      omega
    simp [hy, Option.join, mkJSDate]
  · unfold parseDateFromDaySlashMonthSlashYear
    rw [hsplit]
    simp [Option.join]
  · have h2 : jsFilterTruthy ((selectSpansNotHidden td).map
        (fun e => extractDecimalCommaString (textContent e))) = [] := by
      apply List.filter_eq_nil_iff.mpr
      intro o ho
      rcases List.mem_map.mp ho with ⟨e, he, rfl⟩
      rw [hall e he]
      simp
    have h1 : scrapeTrnamt node = some none := by
      simp [scrapeTrnamt, htd, h2, jsParseFloatOpt]
    unfold scrapeStmtTrnFromNode at hrec
    rw [h1] at hrec
    simp only [Option.bind_eq_bind, Option.some_bind'] at hrec
    cases hdsc : (getElementsByClassName node "fatura__table-col-dsc").head? with
    | none => rw [hdsc] at hrec; simp at hrec
    | some dscEl =>
      rw [hdsc] at hrec
      simp only [Option.bind_eq_bind, Option.some_bind'] at hrec
      cases hdata : (getElementsByClassName node "fatura__table-col-data").head? with
      | none => rw [hdata] at hrec; simp at hrec
      | some dataEl =>
        rw [hdata] at hrec
        simp only [Option.bind_eq_bind, Option.some_bind', Option.pure_def,
          Option.some_inj] at hrec
        rw [← hrec]

/-- Witness for `extraction_failure_modes`, at a page with no marker, the
due-date texts `"15/07"` and `"01/02/03/04"`, and the transaction row
with no matching amount span. -/
theorem extraction_failure_modes_witness :
    scrapeDueDate pageDocNoMarker = none ∧
    parseDateFromDaySlashMonthSlashYear "15/07" = JSDate.invalid ∧
    parseDateFromDaySlashMonthSlashYear "01/02/03/04" = JSDate.mk 2003 2 1 ∧
    (STMTTRN.mk (JSDate.mk 2020 6 6) "Tim*61981548988" none).TRNAMT = none := by
  refine ⟨(extraction_failure_modes.1 pageDocNoMarker).mpr (Or.inl (by decide)),
    extraction_failure_modes.2.1 "15/07" (by decide), ?_,
    extraction_failure_modes.2.2.2.2 tbody3 tdNum3 (some 2020) _ (by decide) (by decide)
      (by decide)⟩
  rw [extraction_failure_modes.2.2.1 "01/02/03/04" "01" "02" "03" ["04"] (by decide)]
  decide

/-! ### C3: month-abbreviation lookup -/

/-- C3: the month-abbreviation lookup maps exactly the twelve
case-sensitive keys `jan..dez` to `1..12` in that order, and every
string outside the table yields the sentinel `0` (from `indexOf`'s `-1`
in the zero-based scheme) instead of failing; the two page-variant
implementations have identical behaviour. -/
theorem month_lookup_table_and_sentinel :
    (parseMonthNumberToAbbreviatedMonthName "jan" = 1 ∧
     parseMonthNumberToAbbreviatedMonthName "fev" = 2 ∧
     parseMonthNumberToAbbreviatedMonthName "mar" = 3 ∧
     parseMonthNumberToAbbreviatedMonthName "abr" = 4 ∧
     parseMonthNumberToAbbreviatedMonthName "mai" = 5 ∧
     parseMonthNumberToAbbreviatedMonthName "jun" = 6 ∧
     parseMonthNumberToAbbreviatedMonthName "jul" = 7 ∧
     parseMonthNumberToAbbreviatedMonthName "ago" = 8 ∧
     parseMonthNumberToAbbreviatedMonthName "set" = 9 ∧
     parseMonthNumberToAbbreviatedMonthName "out" = 10 ∧
     parseMonthNumberToAbbreviatedMonthName "nov" = 11 ∧
     parseMonthNumberToAbbreviatedMonthName "dez" = 12) ∧
    (∀ s : String, s ∉ monthAbbreviations → parseMonthNumberToAbbreviatedMonthName s = 0) ∧
    (∀ s : String,
      convertMonthNumberToAbbreviatedMonthName s = parseMonthNumberToAbbreviatedMonthName s) := by
  refine ⟨by decide, fun s hs => ?_, fun s => rfl⟩
  unfold parseMonthNumberToAbbreviatedMonthName
  rw [jsIndexOf_of_not_mem _ _ hs]
  decide

/-- Witness for `month_lookup_table_and_sentinel`: the unknown key
`"Jan"` (wrong case) maps to the sentinel `0`. -/
theorem month_lookup_table_and_sentinel_witness :
    parseMonthNumberToAbbreviatedMonthName "Jan" = 0 :=
  month_lookup_table_and_sentinel.2.1 "Jan" (by decide)

/-! ### C5: due-date string parsing -/

/-- C5 counterexample: `"31/02/21"` consists of three numeric parts, yet
the parser does not return day 31 / month 2: the `Date` constructor
normalizes it to 2021-03-03. -/
theorem parse_due_date_feb31_counterexample :
    parseDateFromDaySlashMonthSlashYear "31/02/21" = JSDate.mk 2021 3 3 ∧
    JSDate.mk 2021 3 3 ≠ JSDate.mk 2021 2 31 := by decide

/-- C5 amended: for every `"dd/mm/yy"` input whose three parts are
numeric AND which denotes a civil-valid date (month 1..12, day within
the month, and the resulting year outside the `Date` constructor's
0..99 remapping range), the parser returns day `dd`, month `mm`, year
`2000+yy` exactly. -/
theorem parse_due_date_valid (s ds ms ys : String) (d m y : Int)
    (hsplit : jsSplit (jsTrim s) '/' = [ds, ms, ys])
    (hd : jsNumber ds = some d) (hm : jsNumber ms = some m) (hy : jsNumber ys = some y)
    (hm1 : 1 ≤ m) (hm2 : m ≤ 12)
    (hd1 : 1 ≤ d) (hd2 : d ≤ daysInMonth (2000 + y) (m - 1))
    (hy1 : ¬(0 ≤ 2000 + y ∧ 2000 + y ≤ 99)) :
    parseDateFromDaySlashMonthSlashYear s = JSDate.mk (2000 + y) m d := by
  unfold parseDateFromDaySlashMonthSlashYear
  rw [hsplit]
  simp only [List.map_cons, List.map_nil, hd, hm, hy, List.get?, Option.join,
    Option.some_bind, id_eq, Option.map_some']
  rw [mkJSDate_valid (2000 + y) (m - 1) d hy1 (by omega) (by omega) hd1 hd2]
  have hmm : m - 1 + 1 = m := by omega
  rw [hmm]

/-- Witness for `parse_due_date_valid`: `"24/04/21"` parses to
2021-04-24. -/
theorem parse_due_date_valid_witness :
    parseDateFromDaySlashMonthSlashYear "24/04/21" = JSDate.mk (2000 + 21) 4 24 :=
  parse_due_date_valid "24/04/21" "24" "04" "21" 24 4 21 (by decide) (by decide)
    (by decide) (by decide) (by decide) (by decide) (by decide) (by decide) (by decide)

/-! ### C6: partial-date parsing with a supplied year -/

/-- C6 counterexample: with the valid input `"24 / abr"` and supplied
year 50, the result's year is 1950, not 50: `new Date(year, ...)` remaps
year arguments 0..99 to 1900+year. -/
theorem parse_day_month_year50_counterexample :
    parseDateFromDaySlashMonth "24 / abr" (some 50) = JSDate.mk 1950 4 24 ∧
    JSDate.mk 1950 4 24 ≠ JSDate.mk 50 4 24 := by decide

/-- C6 amended: for every `"<day> / <abbrev>"` input with a valid
3-letter lowercase Portuguese month abbreviation (whitespace around `/`
insignificant), a day valid for the looked-up month, and a supplied year
outside the constructor's 0..99 remapping range, the parser returns that
day, the month given by the lookup table, and the supplied year. -/
theorem parse_day_month_valid (s ds ms : String) (d year : Int)
    (hsplit : jsSplit s '/' = [ds, ms])
    (hd : jsParseInt (jsTrim ds) = some d)
    (hmem : jsTrim ms ∈ monthAbbreviations)
    (hy : ¬(0 ≤ year ∧ year ≤ 99))
    (hd1 : 1 ≤ d)
    (hd2 : d ≤ daysInMonth year (parseMonthNumberToAbbreviatedMonthName (jsTrim ms) - 1)) :
    parseDateFromDaySlashMonth s (some year) =
      JSDate.mk year (parseMonthNumberToAbbreviatedMonthName (jsTrim ms)) d := by
  have h0 : 0 ≤ jsIndexOf monthAbbreviations (jsTrim ms) :=
    jsIndexOf_nonneg_of_mem _ _ hmem
  have h12 : jsIndexOf monthAbbreviations (jsTrim ms) < 12 := by
    have h := jsIndexOf_lt_length monthAbbreviations (jsTrim ms)
    simpa [monthAbbreviations] using h
  unfold parseDateFromDaySlashMonth parseDateComponentsFromDaySlashMonth
  rw [hsplit]
  simp only [List.map_cons, List.map_nil, List.headD, List.get?, hd]
  rw [mkJSDate_valid year (parseMonthNumberToAbbreviatedMonthName (jsTrim ms) - 1) d hy
    (by unfold parseMonthNumberToAbbreviatedMonthName; omega)
    (by unfold parseMonthNumberToAbbreviatedMonthName; omega) hd1 hd2]
  have hmm : parseMonthNumberToAbbreviatedMonthName (jsTrim ms) - 1 + 1 =
      parseMonthNumberToAbbreviatedMonthName (jsTrim ms) := by omega
  rw [hmm]

/-- Witness for `parse_day_month_valid`: `("24 / abr", 2023)` yields
2023-04-24. -/
theorem parse_day_month_valid_witness :
    parseDateFromDaySlashMonth "24 / abr" (some 2023) =
      JSDate.mk 2023 (parseMonthNumberToAbbreviatedMonthName (jsTrim " abr")) 24 :=
  parse_day_month_valid "24 / abr" "24 " " abr" 24 2023 (by decide) (by decide)
    (by decide) (by decide) (by decide) (by decide)

/-! ### C4: determinism of the scrape -/

/-- C4 counterexample: two invocations of `scrapeOFXData` on the same
unchanged document at different instants do not return equal `OFXData`
results: `DTSERVER` is the invocation wall-clock time, so it differs. -/
theorem scrapeOFXData_dtserver_differs :
    scrapeOFXData 0 pageDoc1 ≠ scrapeOFXData 1 pageDoc1 := by decide

/-- C4 amended: the `dueDate` and `BANKTRANLIST` components of
`scrapeOFXData` are pure, deterministic functions of the document alone
(two invocations at any two instants agree on them), while `DTSERVER` is
the invocation's wall-clock instant, so two invocations agree on it only
if they share an instant.  (Non-mutation of the input tree is inherent in
the model: every scraping operation is a function of the tree value.) -/
theorem scrapeOFXData_components_deterministic (doc : Dom) (t1 t2 : Int) :
    (scrapeOFXData t1 doc).map OFXData.dueDate = (scrapeOFXData t2 doc).map OFXData.dueDate ∧
    (scrapeOFXData t1 doc).map OFXData.BANKTRANLIST =
      (scrapeOFXData t2 doc).map OFXData.BANKTRANLIST ∧
    (∀ r : OFXData, scrapeOFXData t1 doc = some r → r.DTSERVER = t1) := by
  unfold scrapeOFXData
  cases scrapeBankTranList doc <;> cases scrapeDueDate doc <;> simp

/-- Witness for `scrapeOFXData_components_deterministic` at the concrete
page and instants 5 and 7. -/
theorem scrapeOFXData_components_deterministic_witness :
    (scrapeOFXData 5 pageDoc1).map OFXData.dueDate =
      (scrapeOFXData 7 pageDoc1).map OFXData.dueDate ∧
    (OFXData.mk 5 (JSDate.mk 2020 7 15)
      [⟨JSDate.mk 2020 4 23, "Amazon Br         03/04", some ⟨5814, 2⟩⟩]).DTSERVER = 5 :=
  ⟨(scrapeOFXData_components_deterministic pageDoc1 5 7).1,
   (scrapeOFXData_components_deterministic pageDoc1 5 7).2.2 _ (by decide)⟩
